import Mathlib

set_option allowUnsafeReducibility true
attribute [semireducible] Rat.add Rat.mul Rat.inv Rat.sub

/-!
Shallow embedding of `src/app/main.py` (portfolio visualisation pipeline).

The program is a pandas pipeline with two core functions:

* `format_transactions` turns the ledger (a nested mapping
  ticker → date → list of attribute records) into a sorted table of
  transaction records with resolved prices and per-ticker running sums
  (`cumsum`).
* `fetch_hist_data` expands the running sums onto a dense calendar grid,
  forward-fills them, left-joins the close-price table onto the grid and
  derives `valuation`, `balance` and `profit_rate`, masking
  `spending_stock` / `invested_cash_stock` on days without a close price.

Modelling conventions:

* pandas `NaN` cells are modelled by `none : Option ℚ`; arithmetic on
  `Option ℚ` propagates `none` exactly as IEEE NaN propagates through
  `*`, `-` and `+`.
* Division (`profit_rate`) can produce IEEE infinities, so its result
  lives in `FVal`, which adds `inf`/`ninf`/`nan` to the rationals.
* Calendar dates are day numbers (`ℕ`); `pd.date_range(start, today)`
  becomes `List.range' startDay (todayDay + 1 - startDay)`.
* The market-data provider (`yf.download`) is an external collaborator:
  the single-day lookup is a parameter `lookupSingle : String → ℕ → Option ℚ`
  and the dense download is an input list of `PriceRow`s.
* `df.sort_values(by=["ticker", "date"])` is modelled by
  `List.insertionSort` over the lexicographic (ticker, date) order; the
  ledger's dictionary keys make (ticker, date) unique, so tie-breaking
  is irrelevant.
* `pd.DataFrame([])` produces a frame without columns, so
  `sort_values(by=["ticker", "date"])` raises `KeyError` when the record
  list is empty; `format_transactions` therefore returns
  `Except.error ("KeyError: ticker")` in exactly that case.
* A dataframe column whose raw values are all Python `None` keeps object
  dtype (only a column with at least one number is converted to
  float/int, with `None` becoming NaN), and the grouped `cumsum`s of
  lines 51/53 raise `TypeError` on an object column; `format_transactions`
  returns an `Except.error` for exactly those ledgers (no `QTE` record
  anywhere, or no `PRICE` record anywhere — see `anyQteItem`,
  `anyPriceItem`).
-/

/-- One attribute record of a ledger entry, i.e. one element of the YAML
list under a (ticker, date) key.  Each record holds at most one
recognised key: `QTE` (a signed quantity) or `PRICE`.
`price none` models a `PRICE` value that `pd.to_numeric(·, errors="coerce")`
turns into NaN (a non-numeric string). -/
inductive Item where
  | qte (q : ℚ)
  | price (p : Option ℚ)
  | other
deriving DecidableEq

/-- The single-day market lookup
`yf.download(ticker, start=date, end=date+1)[ticker]["Close"]`:
`none` models an empty lookup result. -/
abbrev Lookup := String → ℕ → Option ℚ

/-- The ledger: `portfolio.items()`, a list of
(ticker, list of (date, attribute-record list)). -/
abbrev Portfolio := List (String × List (ℕ × List Item))

/-- A row of the `records` list built in `format_transactions`. -/
structure RawRecord where
  date : ℕ
  ticker : String
  quantity_flow : Option ℚ
  price : Option ℚ
  buy_price_yahoo : Option ℚ
deriving DecidableEq

/-- A row of the dataframe returned by `format_transactions`
(after the cumulative-sum columns are added). -/
structure ResolvedTx where
  date : ℕ
  ticker : String
  quantity_flow : Option ℚ
  price : Option ℚ
  quantity_stock : Option ℚ
  spending_flow : Option ℚ
  spending_stock : Option ℚ
  invested_cash_flow : Option ℚ
  invested_cash_stock : Option ℚ
deriving DecidableEq

/-- A row of the stacked close-price table downloaded in
`fetch_hist_data` (`hist_data[["date", "ticker", "close"]]`);
`close = none` is a NaN close (e.g. a delisted ticker). -/
structure PriceRow where
  date : ℕ
  ticker : String
  close : Option ℚ
deriving DecidableEq

/-- IEEE-style value used for the `profit_rate` column, whose division
can produce infinities. -/
inductive FVal where
  | nan
  | num (q : ℚ)
  | inf
  | ninf
deriving DecidableEq

/-- A row of the final table returned by `fetch_hist_data`. -/
structure OutRow where
  ticker : String
  date : ℕ
  close : Option ℚ
  quantity_stock : Option ℚ
  spending_stock : Option ℚ
  invested_cash_stock : Option ℚ
  valuation : Option ℚ
  balance : Option ℚ
  profit_rate : FVal
deriving DecidableEq

/-- NaN-propagating multiplication (pandas `*` on float columns). -/
def omul : Option ℚ → Option ℚ → Option ℚ
  | some x, some y => some (x * y)
  | _, _ => none

/-- NaN-propagating subtraction (pandas `-` on float columns). -/
def osub : Option ℚ → Option ℚ → Option ℚ
  | some x, some y => some (x - y)
  | _, _ => none

/-- IEEE division for the `profit_rate` column: NaN operands give NaN,
a nonzero value divided by zero gives a signed infinity, 0/0 gives NaN. -/
def fdiv : Option ℚ → Option ℚ → FVal
  | some x, some y =>
    if y = 0 then
      if x = 0 then .nan else if 0 < x then .inf else .ninf
    else .num (x / y)
  | _, _ => .nan

/-- `series.where(series > 0, 0)` on the quantity column: keeps positive
values, replaces everything else — including NaN, for which `NaN > 0` is
`False` — by `0`. -/
def wherePos : Option ℚ → Option ℚ
  | some x => if 0 < x then some x else some 0
  | none => some 0

/-- `next((item['QTE'] for item in details if 'QTE' in item), None)`:
the first `QTE` record of the attribute list, if any. -/
def firstQte : List Item → Option ℚ
  | [] => none
  | .qte q :: _ => some q
  | _ :: rest => firstQte rest

/-- `next((pd.to_numeric(item['PRICE'], errors="coerce") for item in details
if 'PRICE' in item), None)`: the first `PRICE` record of the attribute
list, coerced to a number; both "no PRICE record" and "non-numeric PRICE"
end up as NaN (`none`) in the dataframe column. -/
def firstPrice : List Item → Option ℚ
  | [] => none
  | .price p :: _ => p
  | _ :: rest => firstPrice rest

/-- The `records` list built by the double loop of `format_transactions`:
one row per ledger entry, holding the extracted quantity, the extracted
declared price and the single-day market lookup result. -/
def mkRecords (lookupSingle : Lookup) (portfolio : Portfolio) : List RawRecord :=
  portfolio.flatMap (fun p =>
    p.2.map (fun tx =>
      { date := tx.1
        ticker := p.1
        quantity_flow := firstQte tx.2
        price := firstPrice tx.2
        buy_price_yahoo := lookupSingle p.1 tx.1 }))

/-- Lexicographic comparison of character lists by unicode codepoint,
the order Python uses to compare the ticker strings when sorting. -/
def charsLt : List Char → List Char → Bool
  | _, [] => false
  | [], _ :: _ => true
  | a :: as, b :: bs =>
    if a.toNat < b.toNat then true
    else if b.toNat < a.toNat then false
    else charsLt as bs

/-- Strict lexicographic order on ticker strings. -/
def strLt (s t : String) : Prop := charsLt s.data t.data = true

instance : DecidableRel strLt := fun s t => by
  unfold strLt; infer_instance

theorem charsLt_irrefl : ∀ l : List Char, charsLt l l = false
  | [] => rfl
  | a :: as => by
    simp only [charsLt, Nat.lt_irrefl, if_false]
    exact charsLt_irrefl as

theorem charsLt_trans : ∀ a b c : List Char,
    charsLt a b = true → charsLt b c = true → charsLt a c = true
  | _, [], _, h1, _ => by simp [charsLt] at h1
  | _, _ :: _, [], _, h2 => by simp [charsLt] at h2
  | [], _ :: _, _ :: _, _, _ => rfl
  | x :: xs, y :: ys, z :: zs, h1, h2 => by
    simp only [charsLt] at h1 h2 ⊢
    split_ifs at h1 h2 ⊢ <;> try omega
    all_goals simp_all
    exact charsLt_trans xs ys zs h1 h2

theorem charsLt_trichotomy : ∀ a b : List Char,
    charsLt a b = true ∨ a = b ∨ charsLt b a = true
  | [], [] => Or.inr (Or.inl rfl)
  | [], _ :: _ => Or.inl rfl
  | _ :: _, [] => Or.inr (Or.inr rfl)
  | x :: xs, y :: ys => by
    rcases Nat.lt_trichotomy x.toNat y.toNat with h | h | h
    · exact Or.inl (by simp [charsLt, h])
    · have hxy : x = y := Char.ext (UInt32.ext h)
      rcases charsLt_trichotomy xs ys with h' | h' | h'
      · exact Or.inl (by simp [charsLt, h, Nat.lt_irrefl, h'])
      · exact Or.inr (Or.inl (by rw [hxy, h']))
      · exact Or.inr (Or.inr (by simp [charsLt, h, Nat.lt_irrefl, h']))
    · exact Or.inr (Or.inr (by simp [charsLt, h]))

theorem strLt_trichotomy (s t : String) : strLt s t ∨ s = t ∨ strLt t s := by
  rcases charsLt_trichotomy s.data t.data with h | h | h
  · exact Or.inl h
  · refine Or.inr (Or.inl ?_)
    cases s; cases t
    exact congrArg String.mk (by simpa using h)
  · exact Or.inr (Or.inr h)

theorem strLt_trans {a b c : String} (h1 : strLt a b) (h2 : strLt b c) :
    strLt a c := charsLt_trans _ _ _ h1 h2

theorem strLt_irrefl (s : String) : ¬ strLt s s := by
  unfold strLt
  simp [charsLt_irrefl]

/-- The sort key of `df.sort_values(by=["ticker", "date"])`. -/
def txLe (a b : RawRecord) : Prop :=
  strLt a.ticker b.ticker ∨ (a.ticker = b.ticker ∧ a.date ≤ b.date)

instance : DecidableRel txLe := fun a b => by
  unfold txLe; infer_instance

instance : IsTotal RawRecord txLe := by
  constructor
  intro a b
  rcases strLt_trichotomy a.ticker b.ticker with h | h | h
  · exact Or.inl (Or.inl h)
  · rcases Nat.le_total a.date b.date with h' | h'
    · exact Or.inl (Or.inr ⟨h, h'⟩)
    · exact Or.inr (Or.inr ⟨h.symm, h'⟩)
  · exact Or.inr (Or.inl h)

instance : IsTrans RawRecord txLe := by
  constructor
  intro a b c hab hbc
  rcases hab with hab | ⟨hab, hab'⟩
  · rcases hbc with hbc | ⟨hbc, _⟩
    · exact Or.inl (strLt_trans hab hbc)
    · exact Or.inl (hbc ▸ hab)
  · rcases hbc with hbc | ⟨hbc, hbc'⟩
    · exact Or.inl (hab ▸ hbc)
    · exact Or.inr ⟨hab.trans hbc, hab'.trans hbc'⟩

/-- `df.loc[df.price.isna(), "price"] = df.loc[df.price.isna(), "buy_price_yahoo"]`:
rows whose declared price is NaN take the single-day market price. -/
def fillPrice (r : RawRecord) : RawRecord :=
  if r.price.isNone then { r with price := r.buy_price_yahoo } else r

/-- Whether an attribute record is a `QTE` record. -/
def isQteItem : Item → Bool
  | .qte _ => true
  | _ => false

/-- Whether an attribute record is a `PRICE` record (numeric or not). -/
def isPriceItem : Item → Bool
  | .price _ => true
  | _ => false

/-- Whether some ledger entry carries a `QTE` record.  When none does,
every raw `quantity_flow` value is Python `None`, pandas infers object
dtype for the column, and `df.groupby("ticker").quantity_flow.cumsum()`
(line 51) raises `TypeError` (pandas has no object implementation of
the grouped cumulative sum). -/
def anyQteItem (portfolio : Portfolio) : Bool :=
  portfolio.any (fun e => e.2.any (fun tx => tx.2.any isQteItem))

/-- Whether some ledger entry carries a `PRICE` record.  Each `PRICE`
record contributes a float (`pd.to_numeric(..., errors="coerce")`: NaN
when non-numeric), so the raw `price` column is float dtype iff some
entry has one.  When none does, the column holds only `None`s and stays
object dtype through the line-49 fill; `quantity_flow * price` is then
an object `spending_flow` column and
`df.groupby("ticker").spending_flow.cumsum()` (line 53) raises
`TypeError`. -/
def anyPriceItem (portfolio : Portfolio) : Bool :=
  portfolio.any (fun e => e.2.any (fun tx => tx.2.any isPriceItem))

/-- Advancing the per-ticker running sums of `quantity_flow`,
`spending_flow` and `invested_cash_flow` past one row (pandas `cumsum`
leaves the accumulator unchanged on a NaN cell, hence `Option.getD 0`). -/
def accStep (acc : String → ℚ × ℚ × ℚ) (r : RawRecord) :
    String → ℚ × ℚ × ℚ :=
  fun u => if u = r.ticker then
    ((acc r.ticker).1 + r.quantity_flow.getD 0,
     (acc r.ticker).2.1 + (omul r.quantity_flow r.price).getD 0,
     (acc r.ticker).2.2 + (omul (wherePos r.quantity_flow) r.price).getD 0)
    else acc u

/-- The three per-ticker `groupby("ticker").cumsum()` columns of
`format_transactions`, computed in one pass over the sorted rows.
The accumulator holds, per ticker, the running sums of
`quantity_flow`, `spending_flow` and `invested_cash_flow` so far;
pandas `cumsum` skips NaN cells (the cell stays NaN, the running sum is
unchanged), which is what `Option.getD 0` together with `Option.map`
implements. -/
def addStocks : (String → ℚ × ℚ × ℚ) → List RawRecord → List ResolvedTx
  | _, [] => []
  | acc, r :: rest =>
    let prev := acc r.ticker
    let spending_flow := omul r.quantity_flow r.price
    let invested_cash_flow := omul (wherePos r.quantity_flow) r.price
    let qs := prev.1 + r.quantity_flow.getD 0
    let ss := prev.2.1 + spending_flow.getD 0
    let ics := prev.2.2 + invested_cash_flow.getD 0
    { date := r.date
      ticker := r.ticker
      quantity_flow := r.quantity_flow
      price := r.price
      quantity_stock := r.quantity_flow.map (fun _ => qs)
      spending_flow := spending_flow
      spending_stock := spending_flow.map (fun _ => ss)
      invested_cash_flow := invested_cash_flow
      invested_cash_stock := invested_cash_flow.map (fun _ => ics) } ::
      addStocks (accStep acc r) rest

/-- `format_transactions(portfolio)`: build the record list, turn it
into a dataframe and sort by (ticker, date), fill missing declared
prices from the market lookup and add the running-sum columns.  Three
inputs make the pandas code raise instead, in source order:

* an empty record list yields `pd.DataFrame([])`, a frame without
  columns, so `sort_values(by=["ticker", "date"])` (line 45) raises
  `KeyError`;
* a ledger with no `QTE` record anywhere gives an all-`None`
  `quantity_flow` column (object dtype), and the line-51 grouped
  `cumsum` raises `TypeError`;
* a ledger with no `PRICE` record anywhere gives an all-`None` `price`
  column (object dtype, and the line-49 fill does not change a column's
  dtype), so `spending_flow` is object and the line-53 grouped `cumsum`
  raises `TypeError`.

(A column with at least one number is float/int dtype — pandas converts
the remaining `None`s to NaN — and the cumulative sums skip NaN cells.) -/
def format_transactions (lookupSingle : Lookup) (portfolio : Portfolio) :
    Except String (List ResolvedTx) :=
  let records := mkRecords lookupSingle portfolio
  if records.isEmpty then .error ("KeyError: ticker")
  else if !anyQteItem portfolio then .error ("TypeError: quantity_flow")
  else if !anyPriceItem portfolio then .error ("TypeError: spending_flow")
  else
    .ok (addStocks (fun _ => (0, 0, 0))
      ((records.insertionSort txLe).map fillPrice))

deriving instance DecidableEq for Except

/-- The last non-NaN value of a column prefix: the accumulator pandas
`ffill` carries forward ("last valid observation carried forward"). -/
def lastSome (vals : List (Option ℚ)) : Option ℚ :=
  vals.foldl (fun acc v => match v with | some x => some x | none => acc) none

/-- The row of the transaction dataframe indexed at (ticker, date), if
any: the value `set_index(["ticker", "date"]).reindex(multi_index)`
places at that grid cell (the ledger's dictionary keys make
(ticker, date) unique, so the index lookup is unambiguous). -/
def txAt (df : List ResolvedTx) (t : String) (d : ℕ) : Option ResolvedTx :=
  df.find? (fun r => r.ticker == t && r.date == d)

/-- The value of column `col` of the reindexed-and-forward-filled frame
`full_df` at grid cell (`t`, `d`):
`full_df.groupby("ticker")[col].ffill()` carries the last non-NaN
reindexed value over the dense calendar
`pd.date_range(start_date, today)` (day numbers
`startDay, startDay+1, …, d` up to the cell's date). -/
def ffillUpTo (df : List ResolvedTx) (col : ResolvedTx → Option ℚ)
    (t : String) (startDay d : ℕ) : Option ℚ :=
  lastSome ((List.range' startDay (d + 1 - startDay)).map
    (fun d' => (txAt df t d').bind col))

/-- The `quantity_stock` column of `full_df` at a grid cell: forward
fill followed by `fillna(0)`, so days before the first (valid)
transaction read `0` instead of NaN. -/
def gridQuantityStock (df : List ResolvedTx) (t : String) (startDay d : ℕ) :
    Option ℚ :=
  some ((ffillUpTo df (fun r => r.quantity_stock) t startDay d).getD 0)

/-- Whether a close-price row of ticker `t` and date `d` finds a match
in `full_df`'s row space, which is the Cartesian product
`df["ticker"].unique() × pd.date_range(startDay, todayDay)`. -/
def inGrid (df : List ResolvedTx) (startDay todayDay : ℕ)
    (t : String) (d : ℕ) : Prop :=
  t ∈ df.map (fun r => r.ticker) ∧ startDay ≤ d ∧ d ≤ todayDay

instance (df : List ResolvedTx) (startDay todayDay : ℕ) (t : String) (d : ℕ) :
    Decidable (inGrid df startDay todayDay t d) := by
  unfold inGrid; infer_instance

/-- `fetch_hist_data(df, portfolio)`: the close-price table is
left-joined (`hist_data.merge(full_df, how='left', on=["ticker","date"])`)
with the expanded, forward-filled transaction frame, so the output has
exactly one row per close-price row; rows without a grid match get NaN
stocks.  Then `valuation`, `balance` and `profit_rate` are derived, and
finally `spending_stock` / `invested_cash_stock` are masked to NaN
wherever the close price is NaN.  The dense downloaded price table
(`hist_data` after stacking) is the input `histRows`; the fixed
`start_date = "2020-01-01"` and `datetime.datetime.today()` are the day
numbers `startDay` and `todayDay`.

`mkOutRow` builds the single output row produced for one close-price
row: the left-join match (NaN stocks when the (ticker, date) key is
outside `full_df`'s row space), the derived columns, and the final
masking of `spending_stock` / `invested_cash_stock` on NaN closes. -/
def mkOutRow (df : List ResolvedTx) (startDay todayDay : ℕ) (pr : PriceRow) :
    OutRow :=
  let quantity_stock := if inGrid df startDay todayDay pr.ticker pr.date
    then gridQuantityStock df pr.ticker startDay pr.date else none
  let spending_stock := if inGrid df startDay todayDay pr.ticker pr.date
    then ffillUpTo df (fun r => r.spending_stock) pr.ticker startDay pr.date else none
  let invested_cash_stock := if inGrid df startDay todayDay pr.ticker pr.date
    then ffillUpTo df (fun r => r.invested_cash_stock) pr.ticker startDay pr.date else none
  let valuation := omul quantity_stock pr.close
  let balance := osub valuation spending_stock
  let profit_rate := fdiv balance invested_cash_stock
  { ticker := pr.ticker
    date := pr.date
    close := pr.close
    quantity_stock := quantity_stock
    spending_stock := if pr.close.isNone then none else spending_stock
    invested_cash_stock := if pr.close.isNone then none else invested_cash_stock
    valuation := valuation
    balance := balance
    profit_rate := profit_rate }

/-- See `mkOutRow`: the final table has one row per close-price row
(the left merge keeps exactly the keys of its left operand,
`hist_data`). -/
def fetch_hist_data (df : List ResolvedTx) (histRows : List PriceRow)
    (startDay todayDay : ℕ) : List OutRow :=
  histRows.map (mkOutRow df startDay todayDay)

/-- Fixture: a ledger with one buy (ticker "X", day 1, quantity 10,
declared price 5) used to evaluate the claims on concrete data. -/
def pfW : Portfolio := [("X", [(1, [Item.qte 10, Item.price (some 5)])])]

/-- Fixture: a constant single-day market lookup. -/
def lkW : Lookup := fun _ _ => some 5

/-- Fixture: the normalized transaction table of `pfW`. -/
def dfW : List ResolvedTx := (format_transactions lkW pfW).toOption.getD []

/-- Fixture: a close-price table with prices on days 1 and 2 and a NaN
close (e.g. a delisting) on day 3. -/
def histW : List PriceRow := [⟨1, "X", some 5⟩, ⟨2, "X", some 6⟩, ⟨3, "X", none⟩]

/-- Fixture: the output row of `fetch_hist_data dfW histW 0 4` for the
NaN-close day 3. -/
def rowW3 : OutRow :=
  { ticker := "X", date := 3, close := none, quantity_stock := some 10,
    spending_stock := none, invested_cash_stock := none,
    valuation := none, balance := none, profit_rate := .nan }

/-- Fixture for C1: a close-price table holding a single trading day,
while the calendar grid spans days 0–9. -/
def histC1 : List PriceRow := [⟨1, "X", some 5⟩]

/-- Fixture for C6: a ledger whose only transaction is a sell
(quantity −5 at declared price 10), so `invested_cash_stock` is `0`. -/
def pfC6 : Portfolio := [("X", [(1, [Item.qte (-5), Item.price (some 10)])])]

/-- Fixture for C6: the normalized table of `pfC6`. -/
def dfC6 : List ResolvedTx := (format_transactions (fun _ _ => none) pfC6).toOption.getD []

/-- Fixture for C6: one close-price row on day 2 with a close of 12,
different from the sell price, so the balance is nonzero. -/
def histC6 : List PriceRow := [⟨2, "X", some 12⟩]

/-- Fixture for C7's witness: a ledger that tracks a ticker with an
empty transaction map, producing an empty record list. -/
def pfW7 : Portfolio := [("Y", [])]

/-- Fixture: the single transaction row of `dfW` (buy of 10 at price 5
on day 1, all running sums at 50). -/
def rW : ResolvedTx :=
  { date := 1, ticker := "X", quantity_flow := some 10, price := some 5,
    quantity_stock := some 10, spending_flow := some 50,
    spending_stock := some 50, invested_cash_flow := some 50,
    invested_cash_stock := some 50 }

/-- Fixture for C8: a ledger with a priced buy on day 1 and an unpriced
buy on day 3; with an empty market lookup, day 3's spending and
invested running sums are NaN. -/
def pfC8 : Portfolio :=
  [("X", [(1, [Item.qte 1, Item.price (some 10)]), (3, [Item.qte 1])])]

/-- Fixture for C8: the normalized table of `pfC8` under an empty
market lookup. -/
def dfC8 : List ResolvedTx :=
  (format_transactions (fun _ _ => none) pfC8).toOption.getD []

/-- Fixture for C3: a day-2 entry with a declared price but no quantity
record, next to a day-4 entry that has both — so the `quantity_flow`
and `price` columns each hold a number and the real pipeline completes
(no object-dtype `TypeError`). -/
def pfC3 : Portfolio :=
  [("X", [(2, [Item.price (some 7)]), (4, [Item.qte 3, Item.price (some 8)])])]

/-- Fixture for C4: one ledger entry with two quantity records of 5
each on the same (ticker, date), plus a price record so the run
completes. -/
def pfC4 : Portfolio :=
  [("X", [(1, [Item.qte 5, Item.qte 5, Item.price (some 2)])])]

/-- Fixture for C5's counterexample: a ledger whose only entry has a
quantity and no `PRICE` record anywhere — the raw `price` column is all
`None` (object dtype) and the real pipeline raises `TypeError` at the
`spending_flow` cumulative sum instead of resolving the market price. -/
def pfC5 : Portfolio := [("X", [(2, [Item.qte 1])])]

/-- Fixture for C5's witness: the day-2 entry has no declared price (so
its effective price comes from the market lookup), while the day-5
entry carries a `PRICE` record, keeping the `price` column float dtype
so the run completes. -/
def pfC5W : Portfolio :=
  [("X", [(2, [Item.qte 1]), (5, [Item.qte 2, Item.price (some 4)])])]

/-- Two raw records with distinct (ticker, date) keys — what the
ledger's nested dictionary structure guarantees for its entries. -/
def keyNeRaw (a b : RawRecord) : Prop :=
  ¬ (a.ticker = b.ticker ∧ a.date = b.date)

/-- Two transaction rows with distinct (ticker, date) keys. -/
def keyNeTx (a b : ResolvedTx) : Prop :=
  ¬ (a.ticker = b.ticker ∧ a.date = b.date)

/-- Strict (ticker, date) order: what the sort order `txLe` together
with key-distinctness gives on the sorted record list. -/
def txLt (a b : RawRecord) : Prop :=
  strLt a.ticker b.ticker ∨ (a.ticker = b.ticker ∧ a.date < b.date)

/-- The prefix sum of the (non-NaN) `quantity_flow` values of ticker
`t` up to and including date `d` — what `groupby("ticker").cumsum()`
computes at a transaction row dated `d` (`cumsum` skips NaN flows,
hence `Option.getD 0`). -/
def flowSumUpTo (l : List ResolvedTx) (t : String) (d : ℕ) : ℚ :=
  ((l.filter (fun r => r.ticker == t && decide (r.date ≤ d))).map
    (fun r => r.quantity_flow.getD 0)).sum

/-- `flowSumUpTo` on raw records. -/
def flowSumUpToRaw (l : List RawRecord) (t : String) (d : ℕ) : ℚ :=
  ((l.filter (fun r => r.ticker == t && decide (r.date ≤ d))).map
    (fun r => r.quantity_flow.getD 0)).sum

/-- The raw record `format_transactions` builds for one ledger entry
(ticker `t`, date `d`, attribute list `details`). -/
def entryRecord (lk : Lookup) (t : String) (d : ℕ) (details : List Item) :
    RawRecord :=
  { date := d, ticker := t, quantity_flow := firstQte details,
    price := firstPrice details, buy_price_yahoo := lk t d }

/-- The fields of a transaction row that the running-sum pass copies
unchanged from its input row. -/
def projTx (r : ResolvedTx) : String × ℕ × Option ℚ × Option ℚ :=
  (r.ticker, r.date, r.quantity_flow, r.price)

/-- The same field tuple on a raw record. -/
def projRaw (r : RawRecord) : String × ℕ × Option ℚ × Option ℚ :=
  (r.ticker, r.date, r.quantity_flow, r.price)

theorem mkOutRow_ticker (df : List ResolvedTx) (s e : ℕ) (pr : PriceRow) :
    (mkOutRow df s e pr).ticker = pr.ticker := rfl

theorem mkOutRow_date (df : List ResolvedTx) (s e : ℕ) (pr : PriceRow) :
    (mkOutRow df s e pr).date = pr.date := rfl

theorem mkOutRow_close (df : List ResolvedTx) (s e : ℕ) (pr : PriceRow) :
    (mkOutRow df s e pr).close = pr.close := rfl

theorem omul_none_right (a : Option ℚ) : omul a none = none := by
  cases a <;> rfl

theorem osub_none_left (b : Option ℚ) : osub none b = none := by
  cases b <;> rfl

theorem fdiv_none_left (b : Option ℚ) : fdiv none b = .nan := by
  cases b <;> rfl

theorem fdiv_none_right (a : Option ℚ) : fdiv a none = .nan := by
  cases a <;> rfl

example : format_transactions (fun _ _ => some 7)
    [("X", [(1, [Item.qte 5, Item.qte 5]), (0, [Item.qte 2, Item.price (some 3)])])] =
    .ok [
      { date := 0, ticker := "X", quantity_flow := some 2, price := some 3,
        quantity_stock := some 2, spending_flow := some 6, spending_stock := some 6,
        invested_cash_flow := some 6, invested_cash_stock := some 6 },
      { date := 1, ticker := "X", quantity_flow := some 5, price := some 7,
        quantity_stock := some 7, spending_flow := some 35, spending_stock := some 41,
        invested_cash_flow := some 35, invested_cash_stock := some 41 }] := by
  decide

example : strLt ("A") ("B") := by decide

example : format_transactions (fun _ _ => some 3)
    [("X", [(2, [Item.price (some 7)])])] =
    .error ("TypeError: quantity_flow") := by
  decide

example : format_transactions (fun _ _ => some 3)
    [("X", [(2, [Item.qte 1]), (4, [Item.qte 2])])] =
    .error ("TypeError: spending_flow") := by
  decide

example :
    fetch_hist_data
      [{ date := 1, ticker := "X", quantity_flow := some 10, price := some 5,
         quantity_stock := some 10, spending_flow := some 50, spending_stock := some 50,
         invested_cash_flow := some 50, invested_cash_stock := some 50 }]
      [⟨1, "X", some 5⟩, ⟨2, "X", some 6⟩, ⟨3, "X", none⟩] 0 4 =
    [{ ticker := "X", date := 1, close := some 5, quantity_stock := some 10,
       spending_stock := some 50, invested_cash_stock := some 50,
       valuation := some 50, balance := some 0, profit_rate := .num 0 },
     { ticker := "X", date := 2, close := some 6, quantity_stock := some 10,
       spending_stock := some 50, invested_cash_stock := some 50,
       valuation := some 60, balance := some 10, profit_rate := .num (1/5) },
     { ticker := "X", date := 3, close := none, quantity_stock := some 10,
       spending_stock := none, invested_cash_stock := none,
       valuation := none, balance := none, profit_rate := .nan }] := by
  decide

theorem mkOutRow_balance (df : List ResolvedTx) (s e : ℕ) (pr : PriceRow) :
    (mkOutRow df s e pr).balance =
    osub (omul (mkOutRow df s e pr).quantity_stock pr.close)
      (if inGrid df s e pr.ticker pr.date
        then ffillUpTo df (fun x => x.spending_stock) pr.ticker s pr.date
        else none) := rfl

theorem mkOutRow_profit (df : List ResolvedTx) (s e : ℕ) (pr : PriceRow) :
    (mkOutRow df s e pr).profit_rate =
    fdiv (mkOutRow df s e pr).balance
      (if inGrid df s e pr.ticker pr.date
        then ffillUpTo df (fun x => x.invested_cash_stock) pr.ticker s pr.date
        else none) := rfl

theorem mkOutRow_invested (df : List ResolvedTx) (s e : ℕ) (pr : PriceRow)
    (c : ℚ) (hc : pr.close = some c) :
    (mkOutRow df s e pr).invested_cash_stock =
    (if inGrid df s e pr.ticker pr.date
      then ffillUpTo df (fun x => x.invested_cash_stock) pr.ticker s pr.date
      else none) := by
  simp [mkOutRow, hc]

theorem fdiv_some_zero (a : Option ℚ) :
    fdiv a (some 0) = .nan ∨ fdiv a (some 0) = .inf ∨ fdiv a (some 0) = .ninf := by
  cases a with
  | none => exact Or.inl rfl
  | some x =>
    unfold fdiv
    by_cases hx : x = 0
    · simp [hx]
    · by_cases hp : 0 < x <;> simp [hx, hp]

/-- C1 (amended): the final table has exactly one row per row of the
close-price table, in the same order, keyed by that row's
(ticker, date): the left merge keeps exactly the keys of `hist_data`,
so the output's row space is the price table's row space, not the dense
calendar grid. -/
theorem C1_output_keys_match_price_table (df : List ResolvedTx)
    (hist : List PriceRow) (s e : ℕ) :
    (fetch_hist_data df hist s e).map (fun r => (r.ticker, r.date)) =
    hist.map (fun p => (p.ticker, p.date)) := by
  induction hist with
  | nil => rfl
  | cons h t ih =>
    simp only [fetch_hist_data, List.map_cons] at ih ⊢
    exact congrArg (List.cons _) ih

/-- C1 (counterexample): ticker "X" is tracked (it has a transaction on
day 1) and the calendar grid spans days 0–9, yet the output holds a
single row — day 5, like every day missing from the downloaded price
table, has no output row, contradicting "exactly one row per tracked
(ticker, calendar date) pair … regardless of whether a close price
exists for that day". -/
theorem C1_missing_day_counterexample :
    dfW.map (fun r => r.ticker) = ["X"] ∧
    (fetch_hist_data dfW histC1 0 9).map (fun r => (r.ticker, r.date)) =
      [("X", 1)] := by
  decide

/-- C2: for every output row, if the close price is unavailable then
`spending_stock`, `invested_cash_stock`, `valuation`, `balance` and
`profit_rate` are all unavailable — the mask forces the two stock
columns to NaN, and the derived columns are NaN because NaN propagates
from the close through `*`, `-` and `/`. -/
theorem C2_masking_law (df : List ResolvedTx) (hist : List PriceRow) (s e : ℕ)
    (r : OutRow) (hr : r ∈ fetch_hist_data df hist s e) (hc : r.close = none) :
    r.spending_stock = none ∧ r.invested_cash_stock = none ∧
    r.valuation = none ∧ r.balance = none ∧ r.profit_rate = .nan := by
  rcases List.mem_map.mp hr with ⟨pr, _, rfl⟩
  have hc' : pr.close = none := hc
  refine ⟨?_, ?_, ?_, ?_, ?_⟩ <;>
    simp [mkOutRow, hc', omul_none_right, osub_none_left, fdiv_none_left]

/-- C2 (witness): on the concrete fixture, the day-3 row has a NaN
close and all five derived fields are unavailable. -/
theorem C2_masking_law_witness :
    rowW3 ∈ fetch_hist_data dfW histW 0 4 ∧
    (rowW3.spending_stock = none ∧ rowW3.invested_cash_stock = none ∧
     rowW3.valuation = none ∧ rowW3.balance = none ∧ rowW3.profit_rate = .nan) :=
  ⟨by decide, C2_masking_law dfW histW 0 4 rowW3 (by decide) (by decide)⟩

/-- C6 (amended): when `invested_cash_stock` is unavailable,
`profit_rate` is unavailable (NaN); but when `invested_cash_stock` is
zero, `profit_rate` is merely never a finite number — the division
yields NaN only when the balance is zero or unavailable, and a signed
infinity otherwise (the code divides without a zero guard). -/
theorem C6_division_guard (df : List ResolvedTx) (hist : List PriceRow)
    (s e : ℕ) (r : OutRow) (hr : r ∈ fetch_hist_data df hist s e) :
    (r.invested_cash_stock = none → r.profit_rate = .nan) ∧
    (r.invested_cash_stock = some 0 →
      r.profit_rate = .nan ∨ r.profit_rate = .inf ∨ r.profit_rate = .ninf) := by
  rcases List.mem_map.mp hr with ⟨pr, _, rfl⟩
  cases hcl : pr.close with
  | none =>
    constructor
    · intro _
      rw [mkOutRow_profit, mkOutRow_balance, hcl, omul_none_right,
        osub_none_left, fdiv_none_left]
    · intro h
      simp [mkOutRow, hcl] at h
  | some c =>
    constructor
    · intro h
      rw [mkOutRow_invested df s e pr c hcl] at h
      rw [mkOutRow_profit, h, fdiv_none_right]
    · intro h
      rw [mkOutRow_invested df s e pr c hcl] at h
      rw [mkOutRow_profit, h]
      exact fdiv_some_zero _

/-- C6 (witness): on the concrete fixture, the day-3 row has an
unavailable `invested_cash_stock` and a NaN `profit_rate`. -/
theorem C6_division_guard_witness :
    rowW3 ∈ fetch_hist_data dfW histW 0 4 ∧
    rowW3.invested_cash_stock = none ∧ rowW3.profit_rate = .nan :=
  ⟨by decide, by decide,
    (C6_division_guard dfW histW 0 4 rowW3 (by decide)).1 (by decide)⟩

/-- C6 (counterexample): a sell-only ticker has `invested_cash_stock = 0`
(a sell contributes `0` to invested cash), and with a close of 12 the
balance is −10, so `profit_rate = −10 / 0` is negative infinity — an
infinite numeric value, not an unavailable one, contradicting the
claim. -/
theorem C6_zero_invested_counterexample :
    (fetch_hist_data dfC6 histC6 0 4).map
      (fun r => (r.invested_cash_stock, r.profit_rate)) =
    [(some 0, FVal.ninf)] := by
  decide

/-- C7 (amended): an empty record list — an empty ledger, or a ledger
whose tickers all have empty transaction maps — makes
`format_transactions` raise (`pd.DataFrame([])` has no columns, so
`sort_values(by=["ticker", "date"])` raises `KeyError`) instead of
returning an empty table. -/
theorem C7_empty_ledger_errors (lk : Lookup) (p : Portfolio)
    (h : mkRecords lk p = []) :
    format_transactions lk p = .error ("KeyError: ticker") := by
  simp [format_transactions, h]

/-- C7 (witness): a ledger tracking one ticker with no transactions
produces an empty record list, and the pipeline errors on it. -/
theorem C7_empty_ledger_errors_witness :
    mkRecords (fun _ _ => none) pfW7 = [] ∧
    format_transactions (fun _ _ => none) pfW7 = .error ("KeyError: ticker") :=
  ⟨by decide, C7_empty_ledger_errors (fun _ _ => none) pfW7 (by decide)⟩

/-- C7 (counterexample): on the empty ledger the pipeline does not
complete with an empty table — it errors, contradicting the claim. -/
theorem C7_empty_ledger_counterexample :
    format_transactions (fun _ _ => none) [] = .error ("KeyError: ticker") := by
  decide

/-- C10: every close-price row whose ticker appears in the transaction
table and whose date lies in the calendar grid yields an output row
with the same (ticker, date), an unchanged close price, and an
available (`some`) `quantity_stock` — even when the close is NaN, since
the masking step touches only `spending_stock` and
`invested_cash_stock`. -/
theorem C10_quantity_stock_available (df : List ResolvedTx)
    (hist : List PriceRow) (s e : ℕ) (pr : PriceRow)
    (h1 : pr ∈ hist) (h2 : pr.ticker ∈ df.map (fun r => r.ticker))
    (h3 : s ≤ pr.date) (h4 : pr.date ≤ e) :
    ∃ r ∈ fetch_hist_data df hist s e,
      r.ticker = pr.ticker ∧ r.date = pr.date ∧ r.close = pr.close ∧
      (r.quantity_stock).isSome = true := by
  refine ⟨mkOutRow df s e pr, List.mem_map_of_mem _ h1, rfl, rfl, rfl, ?_⟩
  have hg : inGrid df s e pr.ticker pr.date := ⟨h2, h3, h4⟩
  simp [mkOutRow, hg, gridQuantityStock]

/-- C10 (witness): the NaN-close day-3 row of the fixture still carries
an available `quantity_stock`. -/
theorem C10_quantity_stock_available_witness :
    (⟨3, "X", none⟩ : PriceRow) ∈ histW ∧
    ∃ r ∈ fetch_hist_data dfW histW 0 4,
      r.ticker = "X" ∧ r.date = 3 ∧ r.close = none ∧
      (r.quantity_stock).isSome = true :=
  ⟨by decide,
    C10_quantity_stock_available dfW histW 0 4 ⟨3, "X", none⟩
      (by decide) (by decide) (by decide) (by decide)⟩

theorem mkRecords_mem (lk : Lookup) (p : Portfolio) (t : String)
    (txs : List (ℕ × List Item)) (d : ℕ) (details : List Item)
    (hp : (t, txs) ∈ p) (htx : (d, details) ∈ txs) :
    entryRecord lk t d details ∈ mkRecords lk p := by
  unfold mkRecords
  exact List.mem_flatMap.mpr
    ⟨(t, txs), hp, List.mem_map.mpr ⟨(d, details), htx, rfl⟩⟩

theorem fillPrice_ticker (r : RawRecord) : (fillPrice r).ticker = r.ticker := by
  unfold fillPrice; split <;> rfl

theorem fillPrice_date (r : RawRecord) : (fillPrice r).date = r.date := by
  unfold fillPrice; split <;> rfl

theorem fillPrice_flow (r : RawRecord) :
    (fillPrice r).quantity_flow = r.quantity_flow := by
  unfold fillPrice; split <;> rfl

theorem fillPrice_price (r : RawRecord) :
    (fillPrice r).price = r.price.or r.buy_price_yahoo := by
  cases h : r.price <;> simp [fillPrice, h]

theorem addStocks_proj : ∀ (acc : String → ℚ × ℚ × ℚ) (l : List RawRecord),
    (addStocks acc l).map projTx = l.map projRaw
  | _, [] => rfl
  | acc, r :: rest => by
    simp only [addStocks, List.map_cons]
    exact congrArg (List.cons _) (addStocks_proj _ rest)

theorem addStocks_exists_of_mem (acc : String → ℚ × ℚ × ℚ)
    (l : List RawRecord) (y : RawRecord) (hy : y ∈ l) :
    ∃ x ∈ addStocks acc l, projTx x = projRaw y := by
  have hmem : projRaw y ∈ (addStocks acc l).map projTx := by
    rw [addStocks_proj]
    exact List.mem_map_of_mem _ hy
  rcases List.mem_map.mp hmem with ⟨x, hx, hpx⟩
  exact ⟨x, hx, hpx⟩

theorem format_transactions_ok (lk : Lookup) (p : Portfolio)
    (h : mkRecords lk p ≠ []) (hq : anyQteItem p = true)
    (hpr : anyPriceItem p = true) :
    format_transactions lk p = .ok (addStocks (fun _ => (0, 0, 0))
      (((mkRecords lk p).insertionSort txLe).map fillPrice)) := by
  have hne : (mkRecords lk p).isEmpty = false := List.isEmpty_eq_false.mpr h
  simp only [format_transactions, hne, Bool.false_eq_true, if_false, hq, hpr,
    Bool.not_true]

theorem format_transactions_eq_ok (lk : Lookup) (p : Portfolio)
    (out : List ResolvedTx) (h : format_transactions lk p = .ok out) :
    mkRecords lk p ≠ [] ∧ anyQteItem p = true ∧ anyPriceItem p = true ∧
    out = addStocks (fun _ => (0, 0, 0))
      (((mkRecords lk p).insertionSort txLe).map fillPrice) := by
  simp only [format_transactions] at h
  by_cases h1 : (mkRecords lk p).isEmpty = true
  · rw [if_pos h1] at h
    exact Except.noConfusion h
  rw [if_neg h1] at h
  by_cases h2 : (!anyQteItem p) = true
  · rw [if_pos h2] at h
    exact Except.noConfusion h
  rw [if_neg h2] at h
  by_cases h3 : (!anyPriceItem p) = true
  · rw [if_pos h3] at h
    exact Except.noConfusion h
  rw [if_neg h3] at h
  refine ⟨?_, ?_, ?_, (Except.ok.inj h).symm⟩
  · intro hnil
    exact h1 (by rw [hnil]; rfl)
  · simpa using h2
  · simpa using h3

theorem anyQteItem_of_entry (p : Portfolio) (t : String)
    (txs : List (ℕ × List Item)) (d : ℕ) (details : List Item) (q : ℚ)
    (hp : (t, txs) ∈ p) (htx : (d, details) ∈ txs)
    (hi : Item.qte q ∈ details) : anyQteItem p = true := by
  unfold anyQteItem
  rw [List.any_eq_true]
  refine ⟨(t, txs), hp, ?_⟩
  rw [List.any_eq_true]
  refine ⟨(d, details), htx, ?_⟩
  rw [List.any_eq_true]
  exact ⟨Item.qte q, hi, rfl⟩

theorem anyPriceItem_of_entry (p : Portfolio) (t : String)
    (txs : List (ℕ × List Item)) (d : ℕ) (details : List Item)
    (v : Option ℚ) (hp : (t, txs) ∈ p) (htx : (d, details) ∈ txs)
    (hi : Item.price v ∈ details) : anyPriceItem p = true := by
  unfold anyPriceItem
  rw [List.any_eq_true]
  refine ⟨(t, txs), hp, ?_⟩
  rw [List.any_eq_true]
  refine ⟨(d, details), htx, ?_⟩
  rw [List.any_eq_true]
  exact ⟨Item.price v, hi, rfl⟩

/-- Every ledger entry of a run that completes (some entry has a `QTE`
record and some a `PRICE` record, so neither raw column is all-`None`)
yields exactly one row of the normalized table, carrying its
(ticker, date), its first quantity record (if any) and its resolved
price: the declared price if numeric, else the single-day market
lookup. -/
theorem format_row_of_entry (lk : Lookup) (p : Portfolio) (t : String)
    (txs : List (ℕ × List Item)) (d : ℕ) (details : List Item)
    (hp : (t, txs) ∈ p) (htx : (d, details) ∈ txs)
    (hq : anyQteItem p = true) (hpr : anyPriceItem p = true) :
    ∃ out, format_transactions lk p = .ok out ∧
      ∃ r ∈ out, r.ticker = t ∧ r.date = d ∧
        r.quantity_flow = firstQte details ∧
        r.price = (firstPrice details).or (lk t d) := by
  have hrec := mkRecords_mem lk p t txs d details hp htx
  refine ⟨_, format_transactions_ok lk p (List.ne_nil_of_mem hrec) hq hpr, ?_⟩
  have hsort : entryRecord lk t d details ∈ (mkRecords lk p).insertionSort txLe :=
    (List.perm_insertionSort txLe _).mem_iff.mpr hrec
  have hfill := List.mem_map_of_mem fillPrice hsort
  rcases addStocks_exists_of_mem (fun _ => (0, 0, 0)) _ _ hfill with ⟨r, hr, hpr⟩
  simp only [projTx, projRaw, fillPrice_ticker, fillPrice_date, fillPrice_flow,
    fillPrice_price, entryRecord, Prod.mk.injEq] at hpr
  exact ⟨r, hr, hpr.1, hpr.2.1, hpr.2.2.1, hpr.2.2.2⟩

/-- C3 (amended): a ledger entry without a quantity record is not
individually fatal and never produces a `MissingQuantity` error: on any
run that completes (some other entry supplies a quantity record, and
some entry a price record), `format_transactions` succeeds and yields a
row for the quantity-less entry whose `quantity_flow` is unavailable
(None/NaN).  Only a ledger with no quantity record anywhere aborts —
and then with an object-dtype `TypeError` from the line-51 cumulative
sum, not a per-entry `MissingQuantity` error. -/
theorem C3_missing_quantity_not_fatal (lk : Lookup) (p : Portfolio)
    (t : String) (txs : List (ℕ × List Item)) (d : ℕ) (details : List Item)
    (hp : (t, txs) ∈ p) (htx : (d, details) ∈ txs)
    (hq : firstQte details = none)
    (hsome : anyQteItem p = true) (hpr : anyPriceItem p = true) :
    ∃ out, format_transactions lk p = .ok out ∧
      ∃ r ∈ out, r.ticker = t ∧ r.date = d ∧ r.quantity_flow = none := by
  rcases format_row_of_entry lk p t txs d details hp htx hsome hpr with
    ⟨out, hfmt, r, hr, h1, h2, h3, _⟩
  exact ⟨out, hfmt, r, hr, h1, h2, hq ▸ h3⟩

/-- C3 (witness): on the fixture whose day-2 entry lacks a quantity
record (its day-4 neighbour keeps the columns numeric), normalization
succeeds and the day-2 row has `quantity_flow = none`. -/
theorem C3_missing_quantity_not_fatal_witness :
    ∃ out, format_transactions (fun _ _ => some 3) pfC3 = .ok out ∧
      ∃ r ∈ out, r.ticker = "X" ∧ r.date = 2 ∧ r.quantity_flow = none :=
  C3_missing_quantity_not_fatal (fun _ _ => some 3) pfC3 ("X")
    [(2, [Item.price (some 7)]), (4, [Item.qte 3, Item.price (some 8)])]
    2 [Item.price (some 7)]
    (by decide) (by decide) (by decide) (by decide) (by decide)

/-- C3 (counterexample): on a ledger whose day-2 entry has no quantity
record (while the day-4 entry keeps the columns numeric, so the real
pipeline completes), the run succeeds — no `MissingQuantity` failure —
and produces a row with a missing quantity, contradicting
"normalization fails … aborts the whole run; it does not produce a
ResolvedTransaction with a missing … quantity". -/
theorem C3_no_missing_quantity_error_counterexample :
    (format_transactions (fun _ _ => some 3) pfC3).isOk = true ∧
    ((format_transactions (fun _ _ => some 3) pfC3).toOption.getD []).map
      (fun r => r.quantity_flow) = [none, some 3] := by
  decide

/-- C4 (amended): for a (ticker, date) entry whose attribute list
starts with a quantity record of `a`, on a run that completes (some
entry has a `PRICE` record, so the price column is numeric) the
resulting `quantity_flow` is `a` — the `next(...)` generator takes the
first quantity record and ignores all later ones, so duplicates are
dropped, not summed. -/
theorem C4_first_quantity_record_wins (lk : Lookup) (p : Portfolio)
    (t : String) (txs : List (ℕ × List Item)) (d : ℕ) (a : ℚ)
    (rest : List Item) (hp : (t, txs) ∈ p)
    (htx : (d, Item.qte a :: rest) ∈ txs)
    (hpr : anyPriceItem p = true) :
    ∃ out, format_transactions lk p = .ok out ∧
      ∃ r ∈ out, r.ticker = t ∧ r.date = d ∧ r.quantity_flow = some a := by
  have hsome : anyQteItem p = true :=
    anyQteItem_of_entry p t txs d (Item.qte a :: rest) a hp htx
      (List.mem_cons_self _ _)
  rcases format_row_of_entry lk p t txs d (Item.qte a :: rest) hp htx
      hsome hpr with ⟨out, hfmt, r, hr, h1, h2, h3, _⟩
  exact ⟨out, hfmt, r, hr, h1, h2, h3⟩

/-- C4 (witness): on the duplicate-quantity fixture (two `QTE 5`
records and a price record), the resulting row has `quantity_flow = 5`,
the first record's value. -/
theorem C4_first_quantity_record_wins_witness :
    ∃ out, format_transactions (fun _ _ => some 2) pfC4 = .ok out ∧
      ∃ r ∈ out, r.ticker = "X" ∧ r.date = 1 ∧ r.quantity_flow = some 5 :=
  C4_first_quantity_record_wins (fun _ _ => some 2) pfC4 ("X")
    [(1, [Item.qte 5, Item.qte 5, Item.price (some 2)])] 1 5
    [Item.qte 5, Item.price (some 2)]
    (by decide) (by decide) (by decide)

/-- C4 (counterexample): two buys of quantity 5 each on the same date
yield `quantity_flow = 5`, not the claimed sum `10`. -/
theorem C4_duplicates_not_summed_counterexample :
    ((format_transactions (fun _ _ => some 2) pfC4).toOption.getD []).map
      (fun r => r.quantity_flow) ≠ [some 10] ∧
    ((format_transactions (fun _ _ => some 2) pfC4).toOption.getD []).map
      (fun r => r.quantity_flow) = [some 5] := by
  decide

/-- C5 (amended): on every run that completes (some entry carries a
`QTE` record and some a `PRICE` record, so neither raw column is
all-`None`), the resolved price of a ledger entry is the declared price
when a numeric declared price exists (`firstPrice details = some v`; a
non-numeric declared price is already coerced to NaN, i.e. `none`, by
`pd.to_numeric(errors="coerce")`), else the single-day market lookup
for that (ticker, date) — which itself may be `none` (empty lookup), in
which case the effective price stays unavailable.  On a ledger with no
`PRICE` record anywhere the price column stays object dtype and the run
aborts with a `TypeError` at the `spending_flow` cumulative sum instead
of resolving market prices. -/
theorem C5_effective_price_resolution (lk : Lookup) (p : Portfolio)
    (t : String) (txs : List (ℕ × List Item)) (d : ℕ) (details : List Item)
    (hp : (t, txs) ∈ p) (htx : (d, details) ∈ txs)
    (hq : anyQteItem p = true) (hpr : anyPriceItem p = true) :
    ∃ out, format_transactions lk p = .ok out ∧
      ∃ r ∈ out, r.ticker = t ∧ r.date = d ∧
        r.price = (firstPrice details).or (lk t d) ∧
        (∀ v : ℚ, firstPrice details = some v → r.price = some v) ∧
        (firstPrice details = none → r.price = lk t d) := by
  rcases format_row_of_entry lk p t txs d details hp htx hq hpr with
    ⟨out, hfmt, r, hr, h1, h2, _, h4⟩
  refine ⟨out, hfmt, r, hr, h1, h2, h4, ?_, ?_⟩
  · intro v hv
    rw [h4, hv]
    rfl
  · intro hv
    rw [h4, hv]
    exact Option.none_or

/-- C5 (witness): on the fixture whose day-2 entry has no declared
price (its day-5 neighbour keeps the price column numeric), the day-2
row's resolved price is the market lookup's value. -/
theorem C5_effective_price_resolution_witness :
    ∃ out, format_transactions (fun _ _ => some 9) pfC5W = .ok out ∧
      ∃ r ∈ out, r.ticker = "X" ∧ r.date = 2 ∧
        r.price = (firstPrice [Item.qte 1]).or (some 9) ∧
        (∀ v : ℚ, firstPrice [Item.qte 1] = some v → r.price = some v) ∧
        (firstPrice [Item.qte 1] = none → r.price = some 9) :=
  C5_effective_price_resolution (fun _ _ => some 9) pfC5W ("X")
    [(2, [Item.qte 1]), (5, [Item.qte 2, Item.price (some 4)])]
    2 [Item.qte 1] (by decide) (by decide) (by decide) (by decide)

/-- C5 (counterexample): for a ledger whose single entry has a quantity
but no declared price — and no `PRICE` record exists anywhere — the
claim's "when the declared price is absent, effective_price equals the
market price" fails: the raw `price` column is all-`None` (object
dtype), and the run aborts with the line-53 `TypeError` instead of
producing any resolved price. -/
theorem C5_no_price_record_counterexample :
    (format_transactions (fun _ _ => some 9) pfC5).isOk = false ∧
    format_transactions (fun _ _ => some 9) pfC5 =
      .error ("TypeError: spending_flow") := by
  decide

theorem foldl_skip_none (l : List (Option ℚ)) (a : Option ℚ)
    (h : ∀ v ∈ l, v = none) :
    l.foldl (fun acc v => match v with | some x => some x | none => acc) a
      = a := by
  induction l generalizing a with
  | nil => rfl
  | cons x xs ih =>
    have hx : x = none := h x (List.mem_cons_self x xs)
    subst hx
    exact ih a (fun v hv => h v (List.mem_cons_of_mem _ hv))

theorem lastSome_all_none (l : List (Option ℚ)) (h : ∀ v ∈ l, v = none) :
    lastSome l = none :=
  foldl_skip_none l none h

theorem lastSome_append_some (l1 l2 : List (Option ℚ)) (v : ℚ)
    (h : ∀ x ∈ l2, x = none) :
    lastSome (l1 ++ some v :: l2) = some v := by
  unfold lastSome
  rw [List.foldl_append]
  exact foldl_skip_none l2 (some v) h

theorem lastSome_append_none (l : List (Option ℚ)) :
    lastSome (l ++ [none]) = lastSome l := by
  unfold lastSome
  rw [List.foldl_append]
  rfl

theorem txAt_eq_none (df : List ResolvedTx) (t : String) (d : ℕ)
    (h : ∀ r ∈ df, r.ticker = t → r.date ≠ d) :
    txAt df t d = none := by
  unfold txAt
  refine List.find?_eq_none.mpr ?_
  intro x hx hpx
  rw [Bool.and_eq_true, beq_iff_eq, beq_iff_eq] at hpx
  exact h x hx hpx.1 hpx.2

theorem ffillUpTo_eq_none (df : List ResolvedTx) (col : ResolvedTx → Option ℚ)
    (t : String) (s d : ℕ) (h : ∀ r ∈ df, r.ticker = t → d < r.date) :
    ffillUpTo df col t s d = none := by
  unfold ffillUpTo
  apply lastSome_all_none
  intro v hv
  rcases List.mem_map.mp hv with ⟨d', hd', rfl⟩
  have hb := List.mem_range'_1.mp hd'
  have hnone : txAt df t d' = none := by
    refine txAt_eq_none df t d' (fun r hr hrt => ?_)
    have := h r hr hrt
    omega
  rw [hnone]
  rfl

theorem range'_split (s m d : ℕ) (h1 : s ≤ m) (h2 : m ≤ d) :
    List.range' s (d + 1 - s) =
    List.range' s (m - s) ++ m :: List.range' (m + 1) (d - m) := by
  have ha := List.range'_append s (m - s) (d + 1 - m) 1
  simp only [Nat.one_mul] at ha
  have hm : s + (m - s) = m := by omega
  rw [hm] at ha
  have hn : d + 1 - m = (d - m) + 1 := by omega
  have htot : (d + 1 - m) + (m - s) = d + 1 - s := by omega
  rw [htot] at ha
  rw [← ha, hn, List.range'_succ]

theorem ffillUpTo_last_avail (df : List ResolvedTx)
    (col : ResolvedTx → Option ℚ) (t : String) (s d : ℕ) (r : ResolvedTx)
    (v : ℚ) (_ht : r.ticker = t) (hs : s ≤ r.date) (hd : r.date ≤ d)
    (hfind : txAt df t r.date = some r) (hcol : col r = some v)
    (hlatest : ∀ x ∈ df, x.ticker = t → x.date ≤ r.date ∨ d < x.date) :
    ffillUpTo df col t s d = some v := by
  unfold ffillUpTo
  rw [range'_split s r.date d hs hd, List.map_append, List.map_cons, hfind]
  rw [show (some r).bind col = some v from hcol]
  apply lastSome_append_some
  intro x hx
  rcases List.mem_map.mp hx with ⟨d', hd', rfl⟩
  have hb := List.mem_range'_1.mp hd'
  have hnone : txAt df t d' = none := by
    refine txAt_eq_none df t d' (fun x hxx hxt => ?_)
    rcases hlatest x hxx hxt with h | h <;> omega
  rw [hnone]
  rfl

/-- C8 (amended): on the expanded daily series, (a) every grid day on
which no transaction of the ticker has happened yet reads
`quantity_stock = 0` (explicit `fillna(0)`) while `spending_stock` and
`invested_cash_stock` stay unavailable; (b) on and after transactions,
each column is forward-filled from the nearest prior transaction *whose
value in that column is available* — `ffill` skips NaN cells, so a
transaction whose running sum is NaN is passed over and the fill
reaches further back (this is the nearest prior `ResolvedTransaction`
whenever its values are all available). -/
theorem C8_pre_first_transaction_fill :
    (∀ (df : List ResolvedTx) (t : String) (s d : ℕ),
      (∀ r ∈ df, r.ticker = t → d < r.date) →
      gridQuantityStock df t s d = some 0 ∧
      ffillUpTo df (fun x => x.spending_stock) t s d = none ∧
      ffillUpTo df (fun x => x.invested_cash_stock) t s d = none) ∧
    (∀ (df : List ResolvedTx) (col : ResolvedTx → Option ℚ) (t : String)
      (s d : ℕ) (r : ResolvedTx) (v : ℚ),
      r.ticker = t → s ≤ r.date → r.date ≤ d →
      txAt df t r.date = some r → col r = some v →
      (∀ x ∈ df, x.ticker = t → x.date ≤ r.date ∨ d < x.date) →
      ffillUpTo df col t s d = some v) := by
  constructor
  · intro df t s d h
    refine ⟨?_, ffillUpTo_eq_none df _ t s d h,
      ffillUpTo_eq_none df _ t s d h⟩
    unfold gridQuantityStock
    rw [ffillUpTo_eq_none df _ t s d h]
    rfl
  · intro df col t s d r v ht hs hd hfind hcol hlatest
    exact ffillUpTo_last_avail df col t s d r v ht hs hd hfind hcol hlatest

/-- C8 (witness): on the fixture, day 0 (before the day-1 buy) reads
`quantity_stock = 0` with unavailable spending/invested sums, and day 3
reads the day-1 `spending_stock = 50` forward-filled. -/
theorem C8_pre_first_transaction_fill_witness :
    (gridQuantityStock dfW ("X") 0 0 = some 0 ∧
     ffillUpTo dfW (fun x => x.spending_stock) "X" 0 0 = none ∧
     ffillUpTo dfW (fun x => x.invested_cash_stock) "X" 0 0 = none) ∧
    ffillUpTo dfW (fun x => x.spending_stock) "X" 0 3 = some 50 :=
  ⟨C8_pre_first_transaction_fill.1 dfW ("X") 0 0 (by decide),
   C8_pre_first_transaction_fill.2 dfW (fun x => x.spending_stock) "X" 0 3
     rW 50 (by decide) (by decide) (by decide) (by decide) (by decide)
     (by decide)⟩

/-- C8 (counterexample): in `dfC8` the transaction nearest before grid
day 4 is the day-3 buy, whose `spending_stock` is unavailable (its
price could not be resolved), yet the daily series shows day 1's value
`some 10` — the fill skipped the nearest prior transaction instead of
taking its (unavailable) value, contradicting "forward-filled from the
chronologically nearest prior ResolvedTransaction". -/
theorem C8_stale_fill_counterexample :
    dfC8.map (fun r => (r.date, r.spending_stock)) =
      [(1, some 10), (3, none)] ∧
    ffillUpTo dfC8 (fun x => x.spending_stock) "X" 0 4 = some 10 := by
  decide

theorem flowSumUpToRaw_cons (r : RawRecord) (rest : List RawRecord)
    (t : String) (d : ℕ) :
    flowSumUpToRaw (r :: rest) t d =
    (if r.ticker = t ∧ r.date ≤ d then r.quantity_flow.getD 0 else 0) +
      flowSumUpToRaw rest t d := by
  have hiff : ((r.ticker == t && decide (r.date ≤ d)) = true) ↔
      (r.ticker = t ∧ r.date ≤ d) := by
    rw [Bool.and_eq_true, beq_iff_eq, decide_eq_true_eq]
  by_cases h : r.ticker = t ∧ r.date ≤ d
  · rw [if_pos h]
    simp only [flowSumUpToRaw, List.filter_cons, if_pos (hiff.mpr h),
      List.map_cons, List.sum_cons]
  · rw [if_neg h]
    have hb : (r.ticker == t && decide (r.date ≤ d)) = false := by
      rw [Bool.eq_false_iff]
      intro hc
      exact h (hiff.mp hc)
    simp only [flowSumUpToRaw, List.filter_cons, hb, Bool.false_eq_true,
      if_false, zero_add]

theorem flowSumUpTo_cons (r : ResolvedTx) (rest : List ResolvedTx)
    (t : String) (d : ℕ) :
    flowSumUpTo (r :: rest) t d =
    (if r.ticker = t ∧ r.date ≤ d then r.quantity_flow.getD 0 else 0) +
      flowSumUpTo rest t d := by
  have hiff : ((r.ticker == t && decide (r.date ≤ d)) = true) ↔
      (r.ticker = t ∧ r.date ≤ d) := by
    rw [Bool.and_eq_true, beq_iff_eq, decide_eq_true_eq]
  by_cases h : r.ticker = t ∧ r.date ≤ d
  · rw [if_pos h]
    simp only [flowSumUpTo, List.filter_cons, if_pos (hiff.mpr h),
      List.map_cons, List.sum_cons]
  · rw [if_neg h]
    have hb : (r.ticker == t && decide (r.date ≤ d)) = false := by
      rw [Bool.eq_false_iff]
      intro hc
      exact h (hiff.mp hc)
    simp only [flowSumUpTo, List.filter_cons, hb, Bool.false_eq_true,
      if_false, zero_add]

theorem flowSumUpToRaw_eq_zero (l : List RawRecord) (t : String) (d : ℕ)
    (h : ∀ y ∈ l, ¬ (y.ticker = t ∧ y.date ≤ d)) :
    flowSumUpToRaw l t d = 0 := by
  induction l with
  | nil => rfl
  | cons y ys ih =>
    rw [flowSumUpToRaw_cons, if_neg (h y (List.mem_cons_self y ys)),
      ih (fun z hz => h z (List.mem_cons_of_mem _ hz)), add_zero]

theorem addStocks_mem_exists (acc : String → ℚ × ℚ × ℚ)
    (l : List RawRecord) (x : ResolvedTx) (hx : x ∈ addStocks acc l) :
    ∃ y ∈ l, projRaw y = projTx x := by
  have hmem : projTx x ∈ (addStocks acc l).map projTx :=
    List.mem_map_of_mem _ hx
  rw [addStocks_proj] at hmem
  rcases List.mem_map.mp hmem with ⟨y, hy, he⟩
  exact ⟨y, hy, he⟩

theorem accStep_fst_self (acc : String → ℚ × ℚ × ℚ) (r : RawRecord) :
    (accStep acc r r.ticker).1 = (acc r.ticker).1 + r.quantity_flow.getD 0 := by
  simp [accStep]

theorem accStep_ne (acc : String → ℚ × ℚ × ℚ) (r : RawRecord) (u : String)
    (h : u ≠ r.ticker) : accStep acc r u = acc u := by
  simp [accStep, h]

/-- The `quantity_stock` cell of each row produced by the cumulative
pass: on a row with a present `quantity_flow`, it is the accumulator's
entry plus the sum of the flows of all rows of the same ticker up to
and including that row's date (the input being strictly sorted on
(ticker, date), date order and row order agree); on a NaN flow, the
cell is NaN. -/
theorem addStocks_quantity_stock : ∀ (l : List RawRecord)
    (acc : String → ℚ × ℚ × ℚ), l.Pairwise txLt →
    ∀ x ∈ addStocks acc l,
    x.quantity_stock = x.quantity_flow.map
      (fun _ => (acc x.ticker).1 + flowSumUpToRaw l x.ticker x.date) := by
  intro l
  induction l with
  | nil =>
    intro acc _ x hx
    simp [addStocks] at hx
  | cons r rest ih =>
    intro acc hpw x hx
    rw [List.pairwise_cons] at hpw
    obtain ⟨hr, hrest⟩ := hpw
    simp only [addStocks] at hx
    rcases List.mem_cons.mp hx with hx | hx
    · subst hx
      have hsum : flowSumUpToRaw (r :: rest) r.ticker r.date =
          r.quantity_flow.getD 0 := by
        rw [flowSumUpToRaw_cons, if_pos ⟨rfl, le_refl r.date⟩,
          flowSumUpToRaw_eq_zero, add_zero]
        intro y hy hc
        rcases hr y hy with h | ⟨h1, h2⟩
        · rw [hc.1] at h
          exact strLt_irrefl _ h
        · omega
      show r.quantity_flow.map
          (fun _ => (acc r.ticker).1 + r.quantity_flow.getD 0) =
        r.quantity_flow.map
          (fun _ => (acc r.ticker).1 + flowSumUpToRaw (r :: rest) r.ticker r.date)
      rw [hsum]
    · rcases addStocks_mem_exists _ rest x hx with ⟨y, hymem, hproj⟩
      have hyt : y.ticker = x.ticker := congrArg (fun z => z.1) hproj
      have hyd : y.date = x.date := congrArg (fun z => z.2.1) hproj
      have hih := ih (accStep acc r) hrest x hx
      have hsc : (accStep acc r x.ticker).1 +
          flowSumUpToRaw rest x.ticker x.date =
          (acc x.ticker).1 + flowSumUpToRaw (r :: rest) x.ticker x.date := by
        by_cases hteq : x.ticker = r.ticker
        · have hrd : r.date < x.date := by
            rcases hr y hymem with h | ⟨h1, h2⟩
            · rw [hyt, hteq] at h
              exact absurd h (strLt_irrefl _)
            · omega
          rw [flowSumUpToRaw_cons, if_pos ⟨hteq.symm, le_of_lt hrd⟩, hteq,
            accStep_fst_self]
          ring
        · rw [flowSumUpToRaw_cons, if_neg (fun hc => hteq hc.1.symm),
            accStep_ne acc r _ hteq, zero_add]
      calc x.quantity_stock
          = x.quantity_flow.map (fun _ => (accStep acc r x.ticker).1 +
              flowSumUpToRaw rest x.ticker x.date) := hih
        _ = x.quantity_flow.map (fun _ => (acc x.ticker).1 +
              flowSumUpToRaw (r :: rest) x.ticker x.date) :=
            congrArg (fun f => Option.map f x.quantity_flow)
              (funext fun _ => hsc)

theorem insertionSort_pairwise_keyNe (l : List RawRecord)
    (h : l.Pairwise keyNeRaw) :
    (l.insertionSort txLe).Pairwise keyNeRaw := by
  refine (List.Perm.pairwise_iff ?_ (List.perm_insertionSort txLe l)).mpr h
  intro a b hab hc
  exact hab ⟨hc.1.symm, hc.2.symm⟩

theorem fillPrice_pairwise_keyNe (l : List RawRecord)
    (h : l.Pairwise keyNeRaw) : (l.map fillPrice).Pairwise keyNeRaw := by
  rw [List.pairwise_map]
  refine h.imp ?_
  intro a b hab hc
  rw [fillPrice_ticker, fillPrice_ticker, fillPrice_date, fillPrice_date] at hc
  exact hab hc

theorem filled_pairwise_txLt (l : List RawRecord)
    (hkeys : l.Pairwise keyNeRaw) :
    ((l.insertionSort txLe).map fillPrice).Pairwise txLt := by
  have hsorted : (l.insertionSort txLe).Pairwise txLe :=
    List.sorted_insertionSort txLe l
  have hkeys' := insertionSort_pairwise_keyNe l hkeys
  have hlt : (l.insertionSort txLe).Pairwise txLt := by
    refine (hsorted.and hkeys').imp ?_
    intro a b hab
    rcases hab with ⟨hle, hne⟩
    rcases hle with h | ⟨h1, h2⟩
    · exact Or.inl h
    · refine Or.inr ⟨h1, ?_⟩
      rcases Nat.lt_or_ge a.date b.date with h3 | h3
      · exact h3
      · exact absurd ⟨h1, Nat.le_antisymm h2 h3⟩ hne
  rw [List.pairwise_map]
  refine hlt.imp ?_
  intro a b hab
  rcases hab with h | ⟨h1, h2⟩
  · exact Or.inl (by rw [fillPrice_ticker, fillPrice_ticker]; exact h)
  · exact Or.inr ⟨by rw [fillPrice_ticker, fillPrice_ticker]; exact h1,
      by rw [fillPrice_date, fillPrice_date]; exact h2⟩

theorem out_pairwise_keyNe (acc : String → ℚ × ℚ × ℚ) (l : List RawRecord)
    (h : l.Pairwise keyNeRaw) : (addStocks acc l).Pairwise keyNeTx := by
  have hmap : ((addStocks acc l).map projTx).Pairwise
      (fun a b => ¬ (a.1 = b.1 ∧ a.2.1 = b.2.1)) := by
    rw [addStocks_proj, List.pairwise_map]
    refine h.imp ?_
    intro a b hab hc
    exact hab ⟨hc.1, hc.2⟩
  rw [List.pairwise_map] at hmap
  refine hmap.imp ?_
  intro a b hab hc
  exact hab ⟨hc.1, hc.2⟩

theorem txAt_eq_some (df : List ResolvedTx) (r : ResolvedTx)
    (hdf : df.Pairwise keyNeTx) (hr : r ∈ df) :
    txAt df r.ticker r.date = some r := by
  induction df with
  | nil => cases hr
  | cons x rest ih =>
    rw [List.pairwise_cons] at hdf
    obtain ⟨hx, hrest⟩ := hdf
    rcases List.mem_cons.mp hr with hr | hr
    · subst hr
      have hpt : (fun z : ResolvedTx =>
          z.ticker == r.ticker && z.date == r.date) r = true := by
        rw [Bool.and_eq_true, beq_iff_eq, beq_iff_eq]
        exact ⟨rfl, rfl⟩
      unfold txAt
      simp only [List.find?_cons, hpt]
    · have hpf : (fun z : ResolvedTx =>
          z.ticker == r.ticker && z.date == r.date) x = false := by
        rw [Bool.eq_false_iff]
        intro hc
        rw [Bool.and_eq_true, beq_iff_eq, beq_iff_eq] at hc
        exact hx r hr ⟨hc.1, hc.2⟩
      unfold txAt
      simp only [List.find?_cons, hpf]
      exact ih hrest hr

theorem mkRecords_ticker_mem (lk : Lookup) (p : Portfolio) (b : RawRecord)
    (hb : b ∈ mkRecords lk p) : b.ticker ∈ p.map Prod.fst := by
  unfold mkRecords at hb
  rcases List.mem_flatMap.mp hb with ⟨e, he, hbe⟩
  rcases List.mem_map.mp hbe with ⟨tx, _, rfl⟩
  exact List.mem_map.mpr ⟨e, he, rfl⟩

theorem mkRecords_pairwise_keyNe (lk : Lookup) (p : Portfolio)
    (h1 : (p.map Prod.fst).Pairwise (fun a b => a ≠ b))
    (h2 : ∀ e ∈ p, (e.2.map Prod.fst).Pairwise (fun a b => a ≠ b)) :
    (mkRecords lk p).Pairwise keyNeRaw := by
  induction p with
  | nil => exact List.Pairwise.nil
  | cons e rest ih =>
    rw [List.map_cons, List.pairwise_cons] at h1
    obtain ⟨h1a, h1b⟩ := h1
    have hrest := ih h1b (fun e' he' => h2 e' (List.mem_cons_of_mem _ he'))
    unfold mkRecords
    rw [List.flatMap_cons, List.pairwise_append]
    refine ⟨?_, hrest, ?_⟩
    · rw [List.pairwise_map]
      have he2 := h2 e (List.mem_cons_self e rest)
      rw [List.pairwise_map] at he2
      refine he2.imp ?_
      intro a b hab hc
      exact hab hc.2
    · intro a ha b hb
      rcases List.mem_map.mp ha with ⟨tx, _, rfl⟩
      have hbt := mkRecords_ticker_mem lk rest b hb
      intro hc
      exact h1a b.ticker hbt hc.1

theorem mkRecords_flow_isSome (lk : Lookup) (p : Portfolio)
    (hq : ∀ e ∈ p, ∀ en ∈ e.2, (firstQte en.2).isSome = true) :
    ∀ y ∈ mkRecords lk p, y.quantity_flow.isSome = true := by
  intro y hy
  unfold mkRecords at hy
  rcases List.mem_flatMap.mp hy with ⟨e, he, hye⟩
  rcases List.mem_map.mp hye with ⟨tx, htx, rfl⟩
  exact hq e he tx htx

theorem flowSum_eq_of_proj : ∀ (m : List ResolvedTx) (l : List RawRecord),
    m.map projTx = l.map projRaw → ∀ (t : String) (d : ℕ),
    flowSumUpTo m t d = flowSumUpToRaw l t d
  | [], [], _, _, _ => rfl
  | [], r :: l, h, _, _ => by simp at h
  | x :: m, [], h, _, _ => by simp at h
  | x :: m, y :: l, h, t, d => by
    rw [List.map_cons, List.map_cons] at h
    injection h with h1 h2
    have ht : x.ticker = y.ticker := congrArg (fun z => z.1) h1
    have hd : x.date = y.date := congrArg (fun z => z.2.1) h1
    have hf : x.quantity_flow = y.quantity_flow :=
      congrArg (fun z => z.2.2.1) h1
    rw [flowSumUpTo_cons, flowSumUpToRaw_cons,
      flowSum_eq_of_proj m l h2 t d, ht, hd, hf]

/-- C9: in the normalized table, `quantity_stock` at each transaction
row equals the prefix sum of that ticker's `quantity_flow` values up to
and including that date; on the expanded daily series the value is
constant (hence non-decreasing) across grid days lying strictly between
two consecutive transaction dates, and on a transaction date the grid
cell carries exactly that row's `quantity_stock`.  Hypotheses: the
ledger's tickers are distinct and so are the dates within each ticker
(dictionary keys), and every entry has a quantity record (so no NaN
flow enters the cumulative sum). -/
theorem C9_quantity_stock_prefix_sum (lk : Lookup) (p : Portfolio)
    (out : List ResolvedTx) (s : ℕ)
    (hfmt : format_transactions lk p = .ok out)
    (h1 : (p.map Prod.fst).Pairwise (fun a b => a ≠ b))
    (h2 : ∀ e ∈ p, (e.2.map Prod.fst).Pairwise (fun a b => a ≠ b))
    (hq : ∀ e ∈ p, ∀ en ∈ e.2, (firstQte en.2).isSome = true) :
    (∀ (t : String) (d : ℕ), (∀ r ∈ out, r.ticker = t → r.date ≠ d + 1) →
      gridQuantityStock out t s (d + 1) = gridQuantityStock out t s d) ∧
    (∀ r ∈ out, s ≤ r.date →
      r.quantity_stock = some (flowSumUpTo out r.ticker r.date) ∧
      ffillUpTo out (fun x => x.quantity_stock) r.ticker s r.date =
        r.quantity_stock) := by
  constructor
  · intro t d hno
    have hcell : ffillUpTo out (fun x => x.quantity_stock) t s (d + 1) =
        ffillUpTo out (fun x => x.quantity_stock) t s d := by
      unfold ffillUpTo
      by_cases hsle : s ≤ d + 1
      · have hsplit : List.range' s (d + 1 + 1 - s) =
            List.range' s (d + 1 - s) ++ [d + 1] := by
          have h' : d + 1 + 1 - s = (d + 1 - s) + 1 := by omega
          rw [h', List.range'_concat]
          have h'' : s + 1 * (d + 1 - s) = d + 1 := by omega
          rw [h'']
        rw [hsplit, List.map_append]
        have hnone : txAt out t (d + 1) = none :=
          txAt_eq_none out t (d + 1) hno
        simp only [List.map_cons, List.map_nil, hnone]
        exact lastSome_append_none _
      · have e1 : d + 1 + 1 - s = 0 := by omega
        have e2 : d + 1 - s = 0 := by omega
        rw [e1, e2]
    unfold gridQuantityStock
    rw [hcell]
  · intro r hr hsr
    obtain ⟨hne, hq2, hp2, hout⟩ := format_transactions_eq_ok lk p out hfmt
    subst hout
    have hkeysRec := mkRecords_pairwise_keyNe lk p h1 h2
    have hfilledLt := filled_pairwise_txLt (mkRecords lk p) hkeysRec
    have hkeysOut := out_pairwise_keyNe (fun _ => (0, 0, 0)) _
      (fillPrice_pairwise_keyNe _ (insertionSort_pairwise_keyNe _ hkeysRec))
    have hflow : r.quantity_flow.isSome = true := by
      rcases addStocks_mem_exists _ _ r hr with ⟨y, hymem, hproj⟩
      have hf : y.quantity_flow = r.quantity_flow :=
        congrArg (fun z => z.2.2.1) hproj
      rcases List.mem_map.mp hymem with ⟨z, hz, rfl⟩
      have hz' : z ∈ mkRecords lk p :=
        (List.perm_insertionSort txLe _).mem_iff.mp hz
      have hzf := mkRecords_flow_isSome lk p hq z hz'
      rw [← hf, fillPrice_flow]
      exact hzf
    have hQS := addStocks_quantity_stock _ (fun _ => (0, 0, 0)) hfilledLt r hr
    have hbridge := flowSum_eq_of_proj
      (addStocks (fun _ => (0, 0, 0))
        (((mkRecords lk p).insertionSort txLe).map fillPrice))
      (((mkRecords lk p).insertionSort txLe).map fillPrice)
      (addStocks_proj (fun _ => (0, 0, 0)) _) r.ticker r.date
    obtain ⟨q, hq'⟩ := Option.isSome_iff_exists.mp hflow
    have hqs : r.quantity_stock = some (flowSumUpTo
        (addStocks (fun _ => (0, 0, 0))
          (((mkRecords lk p).insertionSort txLe).map fillPrice))
        r.ticker r.date) := by
      rw [hQS, hq']
      refine congrArg some ?_
      rw [hbridge]
      exact zero_add _
    refine ⟨hqs, ?_⟩
    have hfind := txAt_eq_some _ r hkeysOut hr
    unfold ffillUpTo
    have hsplit : List.range' s (r.date + 1 - s) =
        List.range' s (r.date - s) ++ [r.date] := by
      have h' : r.date + 1 - s = (r.date - s) + 1 := by omega
      rw [h', List.range'_concat]
      have h'' : s + 1 * (r.date - s) = r.date := by omega
      rw [h'']
    rw [hsplit, List.map_append]
    simp only [List.map_cons, List.map_nil, hfind]
    have hb : (some r).bind (fun x => x.quantity_stock) = r.quantity_stock :=
      rfl
    rw [hb, hqs, lastSome_append_some _ [] _
      (fun x hx => absurd hx (List.not_mem_nil x))]

/-- C9 (witness): on the fixture, the grid cell is constant from day 1
to day 2 (no transaction on day 2), and the day-1 transaction row's
`quantity_stock` is the prefix sum 10, which the grid cell at day 1
reproduces. -/
theorem C9_quantity_stock_prefix_sum_witness :
    gridQuantityStock dfW ("X") 0 2 = gridQuantityStock dfW ("X") 0 1 ∧
    (rW.quantity_stock = some (flowSumUpTo dfW rW.ticker rW.date) ∧
     ffillUpTo dfW (fun x => x.quantity_stock) rW.ticker 0 rW.date =
       rW.quantity_stock) :=
  ⟨(C9_quantity_stock_prefix_sum lkW pfW dfW 0 (by decide) (by decide)
      (by decide) (by decide)).1 ("X") 1 (by decide),
   (C9_quantity_stock_prefix_sum lkW pfW dfW 0 (by decide) (by decide)
      (by decide) (by decide)).2 rW (by decide) (by decide)⟩
